import Mathlib

/-!
Verification of the streaming-response assembly engine of the
`anthropic-go` client library (`anthropic/util.go`, first revision, the one
the package tests exercise).

The embedding mirrors the Go source closely:

* Values produced by `encoding/json.Unmarshal` into `interface\x7b\x7d` are
  modelled by the inductive `JSON` below (Go yields `nil`, `bool`,
  `float64`, `string`, `[]interface\x7b\x7d` and `map[string]interface\x7b\x7d`).
  Every numeric payload this protocol carries is integral and the program
  immediately truncates it with `int(...)`, so numbers are modelled as
  integers, on which that truncation is the identity.
* Decoded objects are association lists with distinct keys (Go map
  semantics); claims observe objects through `jLookup`, so the list order
  of fields is irrelevant.
* `json.RawMessage` byte slices are represented by the `JSON` value the
  bytes decode to (`none` for a nil slice).  The program only ever stores
  `json.Marshal` results into these fields and only reads them back through
  `json.Unmarshal`, so this abstraction is exact.
* Go functions returning `(Message, error)` become functions returning a
  pair of the message and an optional error string; a Go runtime panic
  (failed unchecked type assertion, negative slice index, write to a nil
  map) is modelled by the `GoRes.crash` outcome, since a panic in the
  producing goroutine crashes the whole program.
* The caller-supplied sink `StreamFunc` is modelled as a pure function from
  the byte fragment it is handed (`none` models a nil slice) to the error
  it returns; handlers additionally record the list of sink invocations
  they perform, which is the observable effect sequence of the Go code.
-/

namespace AnthropicGo

/-- A decoded JSON value as `encoding/json.Unmarshal` produces it into a Go
`interface` value. -/
inductive JSON : Type where
  | null : JSON
  | bool (b : Bool) : JSON
  | num (n : Int) : JSON
  | str (s : String) : JSON
  | arr (xs : List JSON) : JSON
  | obj (fields : List (String × JSON)) : JSON

/-- A decoded JSON object: what Go calls `map[string]interface\x7b\x7d`. -/
abbrev JMap : Type := List (String × JSON)

/-- Go map indexing `m[key]`: `none` when the key is absent. -/
def jLookup : JMap → String → Option JSON
  | [], _ => none
  | (k, v) :: rest, key => if k = key then some v else jLookup rest key

/-- The Go type assertion `x.(string)` on a map lookup result. -/
def asString : Option JSON → Option String
  | some (JSON.str s) => some s
  | _ => none

/-- The Go type assertion `x.(float64)` on a map lookup result (JSON
numbers always decode to `float64`). -/
def asNum : Option JSON → Option Int
  | some (JSON.num n) => some n
  | _ => none

/-- The Go type assertion `x.(map[string]interface\x7b\x7d)`. -/
def asObj : Option JSON → Option JMap
  | some (JSON.obj m) => some m
  | _ => none

/-- `getString` from util.go: returns the string at `key`, or `""` when the
key is absent or not a string. -/
def getString (m : JMap) (key : String) : String :=
  match asString (jLookup m key) with
  | some s => s
  | none => ""

/-- Go map assignment `m[k] = v` on an association list with distinct
keys. -/
def mapInsert : JMap → String → JSON → JMap
  | [], k, v => [(k, v)]
  | (k', v') :: rest, k, v =>
    if k' = k then (k, v) :: rest else (k', v') :: mapInsert rest k v

/-- The merge loop `for k, v := range input { existing[k] = v }`.  The Go
range order over a map is unspecified, but since the keys of `input` are
distinct the resulting map does not depend on it; we fold in list order. -/
def mapMerge (existing input : JMap) : JMap :=
  input.foldl (fun acc kv => mapInsert acc kv.1 kv.2) existing

/-- In-place update of one list element, as Go's
`slice[i].Field = ...` mutation (no-op when out of range; the callers
establish the range bound first, mirroring the source's guards). -/
def listModify {α : Type} : List α → Nat → (α → α) → List α
  | [], _, _ => []
  | x :: xs, 0, f => f x :: xs
  | x :: xs, n + 1, f => x :: listModify xs n f

/-- `Usage` from models.go. -/
structure Usage where
  inputTokens : Int := 0
  outputTokens : Int := 0
deriving Repr, DecidableEq

/-- `ToolCall` as used by the streaming fold: `Input` is a
`json.RawMessage`, modelled by the decoded value of its bytes (`none` for a
nil slice). -/
structure ToolCall where
  tcType : String := ""
  id : String := ""
  name : String := ""
  input : Option JSON := none

/-- `ToolOutput` from models.go. -/
structure ToolOutput where
  toolCallID : String := ""
  output : String := ""
deriving Repr, DecidableEq

/-- `ContentBlock` as used by the streaming fold (`Image` is never read or
written by the fold and is omitted). -/
structure ContentBlock where
  cbType : String := ""
  text : String := ""
  toolCall : Option ToolCall := none
  toolOutput : Option ToolOutput := none

/-- `Message` from models.go, restricted to the fields the streaming fold
reads or writes (`CreatedAt`, a `time.Time`, is never touched). -/
structure Message where
  id : String := ""
  msgType : String := ""
  role : String := ""
  content : List ContentBlock := []
  model : String := ""
  stopReason : String := ""
  stopSequence : String := ""
  usage : Usage := {}

/-- The slice of `MessageParams` the fold consults: the optional sink.  The
sink is modelled as a pure function from the fragment passed to it (`none`
models a nil `[]byte`) to the error it returns (`none` for a nil error). -/
structure MessageParams where
  streamFunc : Option (Option String → Option String) := none

/-- `IsStreaming` from models.go. -/
def MessageParams.IsStreaming (p : MessageParams) : Bool :=
  p.streamFunc.isSome

/-- Outcome of running a piece of Go code that can panic: `ok` is a normal
return, `crash` a runtime panic (which in this program kills the producing
goroutine and hence the process). -/
inductive GoRes (α : Type) : Type where
  | ok (a : α) : GoRes α
  | crash (reason : String) : GoRes α

/-- `handleMessageStartEvent` (util.go lines 88-111).  Returns the pair
`(Message, error)` of the Go function. -/
def handleMessageStartEvent (event : JMap) (response : Message) :
    Message × Option String :=
  match asObj (jLookup event "message") with
  | none => (response, some "invalid message field")
  | some message =>
    match asObj (jLookup message "usage") with
    | none => (response, some "invalid usage field")
    | some usage =>
      match asNum (jLookup usage "input_tokens") with
      | none => (response, some "invalid input_tokens field")
      | some inputTokens =>
        ({ response with
            id := getString message "id"
            model := getString message "model"
            role := getString message "role"
            msgType := getString message "type"
            usage := { response.usage with inputTokens := inputTokens } },
         none)

/-- `handleContentBlockStartEvent` (util.go lines 113-158).  Note that only
the `"text"` arm guards the append with `len(response.Content) <= index`;
the `"tool_use"` and `"tool_result"` arms append unconditionally. -/
def handleContentBlockStartEvent (event : JMap) (response : Message) :
    Message × Option String :=
  match asNum (jLookup event "index") with
  | none => (response, some "invalid index field")
  | some index =>
    match asObj (jLookup event "content_block") with
    | none => (response, some "invalid content_block field")
    | some contentBlock =>
      match getString contentBlock "type" with
      | "text" =>
        if (response.content.length : Int) ≤ index then
          ({ response with
              content := response.content ++ [{ cbType := "text" }] }, none)
        else
          (response, none)
      | "tool_use" =>
        -- json.Marshal of a decoded value never fails, so the error branch
        -- of the source is unreachable; the stored RawMessage is the value.
        let toolUse : ToolCall :=
          { tcType := "tool_use"
            id := getString contentBlock "id"
            name := getString contentBlock "name"
            input := jLookup contentBlock "input" }
        ({ response with
            content := response.content ++
              [{ cbType := "tool_use", toolCall := some toolUse }] }, none)
      | "tool_result" =>
        let toolResult : ToolOutput :=
          { toolCallID := getString contentBlock "tool_call_id"
            output := getString contentBlock "output" }
        ({ response with
            content := response.content ++
              [{ cbType := "tool_result", toolOutput := some toolResult }] },
         none)
      | other => (response, some ("unknown content block type: " ++ other))

/-- `handleMessageDeltaEvent` (util.go lines 234-250).  The stop reason is
written before the usage field is validated, and a present but non-numeric
`output_tokens` is silently ignored (the `ok` of its type assertion only
gates the assignment). -/
def handleMessageDeltaEvent (event : JMap) (response : Message) :
    Message × Option String :=
  match asObj (jLookup event "delta") with
  | none => (response, some "invalid delta field")
  | some delta =>
    let response1 := { response with stopReason := getString delta "stop_reason" }
    match asObj (jLookup event "usage") with
    | none => (response1, some "invalid usage field")
    | some usage =>
      match asNum (jLookup usage "output_tokens") with
      | some outputTokens =>
        ({ response1 with
            usage := { response1.usage with outputTokens := outputTokens } },
         none)
      | none => (response1, none)

/- Serialization of a decoded value back to bytes, as `json.Marshal`
produces it (modelling only: the single call site that serializes a whole
map this way is unreachable, see `handleContentBlockDeltaStream`). -/
mutual

def jserialize : JSON → String
  | .null => "null"
  | .bool b => if b then "true" else "false"
  | .num n => toString n
  | .str s => "\"" ++ s ++ "\""
  | .arr xs => "[" ++ jserializeList xs ++ "]"
  | .obj m => "\x7b" ++ jserializeObj m ++ "\x7d"

def jserializeList : List JSON → String
  | [] => ""
  | [x] => jserialize x
  | x :: y :: xs => jserialize x ++ "," ++ jserializeList (y :: xs)

def jserializeObj : List (String × JSON) → String
  | [] => ""
  | [(k, v)] => "\"" ++ k ++ "\":" ++ jserialize v
  | (k, v) :: p :: xs =>
    "\"" ++ k ++ "\":" ++ jserialize v ++ "," ++ jserializeObj (p :: xs)

end

/-- Outcome of the `switch deltaType` statement of
`handleContentBlockDeltaEvent` (util.go lines 173-213): a normal fall
through to the streaming section, an early `return response, err`, or a
runtime panic. -/
inductive SwitchOut : Type where
  | ok (m : Message) : SwitchOut
  | fail (m : Message) (err : String) : SwitchOut
  | crash (reason : String) : SwitchOut

/-- The `switch deltaType` statement of `handleContentBlockDeltaEvent`
(util.go lines 173-213).  A negative index passes the `len <= index`
guards (Go evaluates them over `int`) and then panics on the slice read;
`existingInput[k] = v` panics when the stored bytes were `null` (nil map)
and the new input is non-empty. -/
def handleContentBlockDeltaSwitch (delta : JMap) (deltaType : String)
    (index : Int) (response : Message) : SwitchOut :=
  match deltaType with
  | "text_delta" =>
    let text := getString delta "text"
    if (response.content.length : Int) ≤ index then
      .ok { response with
              content := response.content ++ [{ cbType := "text", text := text }] }
    else if index < 0 then
      .crash "runtime error: index out of range"
    else
      .ok { response with
              content := listModify response.content index.toNat
                (fun cb => { cb with text := cb.text ++ text }) }
  | "tool_use_delta" =>
    if (response.content.length : Int) ≤ index then
      .fail response "invalid tool_use_delta: no corresponding tool_use block"
    else if index < 0 then
      .crash "runtime error: index out of range"
    else
      match (response.content.get? index.toNat).bind ContentBlock.toolCall with
      | none => .fail response "invalid tool_use_delta: no corresponding tool_use block"
      | some tc =>
        match asObj (jLookup delta "input") with
        | none => .ok response
        | some input =>
          -- json.Unmarshal(tc.Input, &existingInput)
          match tc.input with
          | none =>
            .fail response "failed to unmarshal existing input: unexpected end of JSON input"
          | some (JSON.obj existing) =>
            let updated := mapMerge existing input
            .ok { response with
                    content := listModify response.content index.toNat
                      (fun cb => { cb with
                        toolCall := some { tc with input := some (JSON.obj updated) } }) }
          | some JSON.null =>
            -- `null` unmarshals into a nil map without error; writing into
            -- it panics, and marshalling it back yields `null`.
            match input with
            | [] =>
              .ok { response with
                      content := listModify response.content index.toNat
                        (fun cb => { cb with
                          toolCall := some { tc with input := some JSON.null } }) }
            | _ => .crash "assignment to entry in nil map"
          | some _ =>
            .fail response "failed to unmarshal existing input: cannot unmarshal into map"
  | "tool_result_delta" =>
    if (response.content.length : Int) ≤ index then
      .fail response "invalid tool_result_delta: no corresponding tool_result block"
    else if index < 0 then
      .crash "runtime error: index out of range"
    else
      match (response.content.get? index.toNat).bind ContentBlock.toolOutput with
      | none => .fail response "invalid tool_result_delta: no corresponding tool_result block"
      | some tout =>
        match asString (jLookup delta "content") with
        | none => .ok response
        | some content =>
          .ok { response with
                  content := listModify response.content index.toNat
                    (fun cb => { cb with
                      toolOutput := some { tout with output := tout.output ++ content } }) }
  | other => .fail response ("unknown delta type: " ++ other)

/-- What a handler run returns: the `(Message, error)` pair of the Go
function together with the list of sink invocations it performed (each
entry the fragment handed to `StreamFunc`; `none` models a nil slice). -/
abbrev HandlerOut : Type := Message × Option String × List (Option String)

/-- The streaming section of `handleContentBlockDeltaEvent` (util.go lines
215-229).  It runs for every delta sub-kind that survived the switch.  The
`"text_delta"` arm repeats the lookup `delta["text"]` with an unchecked
type assertion, a panic when the field is absent or not a string; the
`"tool_call_delta"` and `"tool_output_delta"` arms can never match (the
switch admits only `text_delta`, `tool_use_delta`, `tool_result_delta`),
so `streamContent` stays nil for the tool sub-kinds.  `streamContentFor`
is the `var streamContent []byte; switch deltaType \x7b...\x7d` block computing
the fragment handed to the sink. -/
def streamContentFor (delta : JMap) (deltaType : String) : GoRes (Option String) :=
  match deltaType with
  | "text_delta" =>
    match asString (jLookup delta "text") with
    | some t => .ok (some t)
    | none => .crash "interface conversion: interface \x7b\x7d is nil, not string"
  | "tool_call_delta" => .ok (some (jserialize (JSON.obj delta)))
  | "tool_output_delta" =>
    match asString (jLookup delta "output") with
    | some t => .ok (some t)
    | none => .crash "interface conversion: interface \x7b\x7d is nil, not string"
  | _ => .ok none

/-- The body of the streaming section once a sink is present: compute
`streamContent` and invoke the sink with it. -/
def handleContentBlockDeltaStream (payload : MessageParams) (delta : JMap)
    (deltaType : String) (response : Message) : GoRes HandlerOut :=
  match payload.streamFunc with
  | none => .ok (response, none, [])
  | some sink =>
    match streamContentFor delta deltaType with
    | .crash r => .crash r
    | .ok sc =>
      match sink sc with
      | some e => .ok (response, some ("streaming func returned an error: " ++ e), [sc])
      | none => .ok (response, none, [sc])

/-- `handleContentBlockDeltaEvent` (util.go lines 160-232): field
validation, then the delta switch, then the streaming section. -/
def handleContentBlockDeltaEvent (payload : MessageParams) (event : JMap)
    (response : Message) : GoRes HandlerOut :=
  match asNum (jLookup event "index") with
  | none => .ok (response, some "invalid index field", [])
  | some index =>
    match asObj (jLookup event "delta") with
    | none => .ok (response, some "invalid delta field", [])
    | some delta =>
      let deltaType := getString delta "type"
      match handleContentBlockDeltaSwitch delta deltaType index response with
      | .crash r => .crash r
      | .fail m e => .ok (m, some e, [])
      | .ok m => handleContentBlockDeltaStream payload delta deltaType m

/-- What one `processStreamEvent` call produces: the updated response, the
returned error, the `MessageEvent`s sent on the handoff channel with a nil
error (only `message_stop` sends one), and the sink invocations
performed. -/
structure ProcOut : Type where
  response : Message
  err : Option String := none
  sent : List Message := []
  sinkCalls : List (Option String) := []

/-- `processStreamEvent` (util.go lines 61-86).  An unrecognized event type
is logged and skipped (the `default` arm prints and falls through to
`return response, nil`). -/
def processStreamEvent (payload : MessageParams) (event : JMap)
    (response : Message) : GoRes ProcOut :=
  match asString (jLookup event "type") with
  | none => .ok { response := response, err := some "invalid event type" }
  | some eventType =>
    match eventType with
    | "message_start" =>
      let r := handleMessageStartEvent event response
      .ok { response := r.1, err := r.2 }
    | "content_block_start" =>
      let r := handleContentBlockStartEvent event response
      .ok { response := r.1, err := r.2 }
    | "content_block_delta" =>
      match handleContentBlockDeltaEvent payload event response with
      | .crash r => .crash r
      | .ok (m, e, calls) => .ok { response := m, err := e, sinkCalls := calls }
    | "content_block_stop" => .ok { response := response }
    | "message_delta" =>
      let r := handleMessageDeltaEvent event response
      .ok { response := r.1, err := r.2 }
    | "message_stop" =>
      -- sends &response on the handoff channel; the consumer records it.
      .ok { response := response, sent := [response] }
    | "ping" => .ok { response := response }
    | _ => .ok { response := response }

/-- One line of the response body, together with the outcome that
`encoding/json.Unmarshal` produces on its payload.  `skip` covers blank
lines and lines without the `data:` marker (util.go lines 23-25); `event`
is a payload line whose data decodes to a JSON object; `badJSON` is a
payload line whose data is not valid JSON (or not an object), carrying the
decode error text.  The unmarshaller itself is Go library code outside
this repository, so its verdict travels with the input. -/
inductive StreamLine : Type where
  | skip : StreamLine
  | event (e : JMap) : StreamLine
  | badJSON (err : String) : StreamLine

/-- The new value of the consumer's `lastResponse` after the events of one
fold step have been delivered on the handoff channel. -/
def updateLast (last : Option Message) (sent : List Message) : Option Message :=
  match sent.getLast? with
  | some m => some m
  | none => last

/-- The producing goroutine and the consuming loop of
`parseStreamingMessageResponse` (util.go lines 17-50), collapsed to their
deterministic joint behaviour: the unbuffered channel has a single
producer that stops at the first decode or fold error, and the consumer
keeps the last successfully delivered response until the channel closes,
returning the first error otherwise.  `readErr` models `scanner.Err()`,
checked only after the line loop finishes without an error.  The Response
sent at `message_stop` is taken by value; no claim exercises the mutation
of an already-delivered response through its shared `Content` backing
array. -/
def parseLoop (payload : MessageParams) :
    List StreamLine → Message → Option Message → Option String →
    GoRes (Option Message × Option String)
  | [], _, last, readErr =>
    match readErr with
    | some e => .ok (none, some ("issue scanning response: " ++ e))
    | none => .ok (last, none)
  | .skip :: rest, response, last, readErr =>
    parseLoop payload rest response last readErr
  | .badJSON e :: _, _, _, _ =>
    .ok (none, some ("failed to parse stream event: " ++ e))
  | .event ev :: rest, response, last, readErr =>
    match processStreamEvent payload ev response with
    | .crash r => .crash r
    | .ok out =>
      match out.err with
      | some e => .ok (none, some ("failed to process stream event: " ++ e))
      | none => parseLoop payload rest out.response (updateLast last out.sent) readErr

/-- `parseStreamingMessageResponse` (util.go lines 13-51) over the decoded
line sequence: returns the pair `(*Message, error)` of the Go function. -/
def parseStreamingMessageResponse (payload : MessageParams)
    (lines : List StreamLine) (readErr : Option String) :
    GoRes (Option Message × Option String) :=
  parseLoop payload lines {} none readErr

/-- Whether a stream contains a payload line whose data is not valid
JSON. -/
def hasInvalidPayload (lines : List StreamLine) : Bool :=
  lines.any fun l =>
    match l with
    | .badJSON _ => true
    | _ => false

/-- Whether a decoded line is a `message_stop` event. -/
def isStopLine : StreamLine → Bool
  | .event e =>
    match asString (jLookup e "type") with
    | some t => t = "message_stop"
    | none => false
  | _ => false

/-- Whether a stream ends without ever carrying a `message_stop` event. -/
def hasNoMessageStop (lines : List StreamLine) : Bool :=
  lines.all fun l => !(isStopLine l)

/-! Concrete events used to instantiate the claims, written as the decoder
produces them from the corresponding `data:` payloads. -/

/-- `data: \x7b"type":"message_start","message":\x7b"id":"msg_1","usage":\x7b"input_tokens":10\x7d\x7d\x7d` -/
def sampleMessageStart : JMap :=
  [("type", .str "message_start"),
   ("message", .obj [("id", .str "msg_1"),
                     ("usage", .obj [("input_tokens", .num 10)])])]

/-- `content_block_start` for a text block at index 0. -/
def sampleTextBlockStart : JMap :=
  [("type", .str "content_block_start"), ("index", .num 0),
   ("content_block", .obj [("type", .str "text")])]

/-- `content_block_delta` carrying the text fragment `t` at index 0. -/
def sampleTextDelta (t : String) : JMap :=
  [("type", .str "content_block_delta"), ("index", .num 0),
   ("delta", .obj [("type", .str "text_delta"), ("text", .str t)])]

/-- `message_delta` with stop reason `end_turn` and 5 output tokens. -/
def sampleMessageDelta : JMap :=
  [("type", .str "message_delta"),
   ("delta", .obj [("stop_reason", .str "end_turn")]),
   ("usage", .obj [("output_tokens", .num 5)])]

/-- The bare `message_stop` event. -/
def sampleMessageStop : JMap := [("type", .str "message_stop")]

/-- The bare `ping` event. -/
def samplePing : JMap := [("type", .str "ping")]

/-- Request parameters whose sink accepts every fragment. -/
def acceptingSinkParams : MessageParams := { streamFunc := some (fun _ => none) }

/-- A message holding one accumulating tool-invocation segment with
arguments `\x7b"ticker":"^GSPC"\x7d`, as `content_block_start` builds it. -/
def sampleToolMessage : Message :=
  { content := [{ cbType := "tool_use",
                  toolCall := some { tcType := "tool_use", id := "call_123",
                                     name := "get_stock_price",
                                     input := some (.obj [("ticker", .str "^GSPC")]) } }] }

/-- `content_block_delta` of sub-kind `tool_use_delta` carrying the partial
input `\x7b"date":"2023-07-01"\x7d` at index 0. -/
def sampleToolUseDeltaDate : JMap :=
  [("type", .str "content_block_delta"), ("index", .num 0),
   ("delta", .obj [("type", .str "tool_use_delta"),
                   ("input", .obj [("date", .str "2023-07-01")])])]

/-- `content_block_delta` of sub-kind `tool_use_delta` with no `input`
field. -/
def sampleToolUseDeltaBare : JMap :=
  [("type", .str "content_block_delta"), ("index", .num 0),
   ("delta", .obj [("type", .str "tool_use_delta")])]

/-- `content_block_delta` of sub-kind `text_delta` whose delta carries no
`text` field. -/
def sampleTextDeltaNoText : JMap :=
  [("type", .str "content_block_delta"), ("index", .num 0),
   ("delta", .obj [("type", .str "text_delta")])]

/-- `content_block_start` for a tool-invocation block at index 0. -/
def sampleToolBlockStart : JMap :=
  [("type", .str "content_block_start"), ("index", .num 0),
   ("content_block", .obj [("type", .str "tool_use"), ("id", .str "call_123"),
                           ("name", .str "get_stock_price")])]

/-- `message_delta` whose `output_tokens` is present but a string. -/
def sampleMessageDeltaStringTokens : JMap :=
  [("type", .str "message_delta"),
   ("delta", .obj [("stop_reason", .str "end_turn")]),
   ("usage", .obj [("output_tokens", .str "5")])]

/-- `message_delta` with a well-formed delta but no `usage` field. -/
def sampleMessageDeltaNoUsage : JMap :=
  [("type", .str "message_delta"),
   ("delta", .obj [("stop_reason", .str "end_turn")])]

/-- A message holding a single accumulated text segment. -/
def sampleTextMessage : Message :=
  { content := [{ cbType := "text", text := "hello" }] }

/-!  General lemmas about the embedded operations. -/

/-- Looking a key up after a Go map assignment. -/
theorem jLookup_mapInsert (m : JMap) (k : String) (v : JSON) (k' : String) :
    jLookup (mapInsert m k v) k' = if k = k' then some v else jLookup m k' := by
  induction m with
  | nil => simp [mapInsert, jLookup]
  | cons p rest ih =>
    obtain ⟨k0, v0⟩ := p
    simp only [mapInsert]
    by_cases h1 : k0 = k
    · subst h1
      simp only [if_pos rfl, jLookup]
      by_cases h2 : k0 = k' <;> simp [h2]
    · simp only [if_neg h1, jLookup]
      by_cases h2 : k0 = k'
      · subst h2
        have hkk : ¬ k = k0 := fun hh => h1 hh.symm
        simp [if_neg hkk]
      · simp [if_neg h2, ih]

/-- A key absent from a map looks up to nothing. -/
theorem jLookup_eq_none_of_not_mem (m : JMap) (k : String)
    (h : k ∉ m.map Prod.fst) : jLookup m k = none := by
  induction m with
  | nil => rfl
  | cons p rest ih =>
    obtain ⟨k0, v0⟩ := p
    simp only [List.map_cons, List.mem_cons, not_or] at h
    have h1 : k0 ≠ k := fun hh => h.1 hh.symm
    simp [jLookup, h1, ih h.2]

/-- The merge loop is a last-write-wins shallow merge: a key present in the
new partial mapping takes its new value, every other key keeps its old
one.  The hypothesis records that a decoded Go map has distinct keys. -/
theorem mapMerge_lookup (existing input : JMap) (k : String)
    (hnd : (input.map Prod.fst).Nodup) :
    jLookup (mapMerge existing input) k =
      match jLookup input k with
      | some v => some v
      | none => jLookup existing k := by
  induction input generalizing existing with
  | nil => simp [mapMerge, jLookup]
  | cons p rest ih =>
    obtain ⟨k0, v0⟩ := p
    simp only [List.map_cons, List.nodup_cons] at hnd
    have step : mapMerge existing ((k0, v0) :: rest) =
        mapMerge (mapInsert existing k0 v0) rest := rfl
    rw [step, ih (mapInsert existing k0 v0) hnd.2]
    by_cases hk : k0 = k
    · subst hk
      have : jLookup rest k0 = none :=
        jLookup_eq_none_of_not_mem rest k0 hnd.1
      simp [this, jLookup, jLookup_mapInsert]
    · simp [jLookup, hk, jLookup_mapInsert]

/-- Only a `message_stop` event sends a response on the handoff channel. -/
theorem processStreamEvent_sent_nil (payload : MessageParams) (ev : JMap)
    (resp : Message) (out : ProcOut)
    (hok : processStreamEvent payload ev resp = .ok out)
    (hstop : asString (jLookup ev "type") ≠ some "message_stop") :
    out.sent = [] := by
  unfold processStreamEvent at hok
  rcases h1 : asString (jLookup ev "type") with _ | t
  · simp only [h1] at hok
    cases hok
    rfl
  · simp only [h1] at hok
    rw [h1] at hstop
    split at hok
    · cases hok; rfl
    · cases hok; rfl
    · split at hok
      · cases hok
      · cases hok; rfl
    · cases hok; rfl
    · cases hok; rfl
    · simp_all
    · cases hok; rfl
    · cases hok; rfl

/-- Without a `message_stop` event the consumer's `lastResponse` never
changes: the coordinator returns whatever it started with. -/
theorem parseLoop_no_stop (payload : MessageParams) (lines : List StreamLine)
    (resp : Message) (last : Option Message) (readErr : Option String)
    (r : Option Message)
    (hok : parseLoop payload lines resp last readErr = .ok (r, none))
    (hstop : hasNoMessageStop lines = true) :
    r = last := by
  induction lines generalizing resp last with
  | nil =>
    unfold parseLoop at hok
    rcases readErr with _ | e
    · simp only at hok
      cases hok
      rfl
    · simp only at hok
      cases hok
  | cons line rest ih =>
    cases line with
    | skip =>
      unfold parseLoop at hok
      simp only [hasNoMessageStop, List.all_cons, Bool.and_eq_true] at hstop
      exact ih resp last hok (by simp [hasNoMessageStop, hstop.2])
    | badJSON e =>
      unfold parseLoop at hok
      cases hok
    | event ev =>
      simp only [hasNoMessageStop, List.all_cons, Bool.and_eq_true] at hstop
      unfold parseLoop at hok
      rcases h1 : processStreamEvent payload ev resp with out | rr
      swap
      · simp only [h1] at hok
        cases hok
      simp only [h1] at hok
      rcases h2 : out.err with _ | e
      · simp only [h2] at hok
        have hns : asString (jLookup ev "type") ≠ some "message_stop" := by
          intro hc
          simp only [isStopLine, hc, Bool.not_eq_true'] at hstop
          simp at hstop
        have hsent : out.sent = [] :=
          processStreamEvent_sent_nil payload ev resp out h1 hns
        rw [hsent] at hok
        have := ih out.response last hok (by simp [hasNoMessageStop, hstop.2])
        simpa [updateLast] using this
      · simp only [h2] at hok
        cases hok

/-- Shape of every completed coordinator run: errors come with a nil
result, and reaching a payload line with invalid data forces an error. -/
theorem parseLoop_ok_shape (payload : MessageParams) (lines : List StreamLine)
    (resp : Message) (last : Option Message) (readErr : Option String)
    (r : Option Message) (e : Option String)
    (hok : parseLoop payload lines resp last readErr = .ok (r, e)) :
    (hasInvalidPayload lines = true → r = none ∧ e ≠ none) ∧
      (r = none ∨ e = none) := by
  induction lines generalizing resp last with
  | nil =>
    unfold parseLoop at hok
    rcases readErr with _ | re
    · simp only at hok
      cases hok
      exact ⟨by simp [hasInvalidPayload], Or.inr rfl⟩
    · simp only at hok
      cases hok
      exact ⟨fun _ => ⟨rfl, by simp⟩, Or.inl rfl⟩
  | cons line rest ih =>
    cases line with
    | skip =>
      unfold parseLoop at hok
      have := ih resp last hok
      simpa [hasInvalidPayload] using this
    | badJSON be =>
      unfold parseLoop at hok
      cases hok
      exact ⟨fun _ => ⟨rfl, by simp⟩, Or.inl rfl⟩
    | event ev =>
      unfold parseLoop at hok
      rcases h1 : processStreamEvent payload ev resp with out | rr
      swap
      · simp only [h1] at hok
        cases hok
      simp only [h1] at hok
      rcases h2 : out.err with _ | oe
      · simp only [h2] at hok
        have := ih out.response (updateLast last out.sent) hok
        simpa [hasInvalidPayload] using this
      · simp only [h2] at hok
        cases hok
        exact ⟨fun _ => ⟨rfl, by simp⟩, Or.inl rfl⟩

/-- Every early-`return` branch of the delta switch hands back the response
it was given. -/
theorem deltaSwitch_fail_eq (delta : JMap) (dt : String) (i : Int)
    (m m' : Message) (e : String)
    (h : handleContentBlockDeltaSwitch delta dt i m = .fail m' e) : m' = m := by
  unfold handleContentBlockDeltaSwitch at h
  repeat' (first | split at h | split_ifs at h)
  all_goals first | (cases h; rfl) | cases h

/-- A sink failure surfaces with the folded message and exactly one
recorded sink invocation. -/
theorem deltaStream_err_calls (p : MessageParams) (delta : JMap) (dt : String)
    (m a : Message) (e : String) (calls : List (Option String))
    (h : handleContentBlockDeltaStream p delta dt m = .ok (a, some e, calls)) :
    a = m ∧ ∃ sc, calls = [sc] := by
  unfold handleContentBlockDeltaStream at h
  split at h
  · cases h
  · split at h
    · cases h
    · split at h
      · cases h
        exact ⟨rfl, _, rfl⟩
      · cases h

/-- `handleMessageStartEvent` leaves the message untouched on failure. -/
theorem msgStart_atomic (e : JMap) (m m' : Message) (err : String)
    (h : handleMessageStartEvent e m = (m', some err)) : m' = m := by
  unfold handleMessageStartEvent at h
  repeat' split at h
  all_goals first | (cases h; rfl) | cases h

/-- `handleContentBlockStartEvent` leaves the message untouched on
failure. -/
theorem cbStart_atomic (e : JMap) (m m' : Message) (err : String)
    (h : handleContentBlockStartEvent e m = (m', some err)) : m' = m := by
  unfold handleContentBlockStartEvent at h
  repeat' (first | split at h | split_ifs at h)
  all_goals first | (cases h; rfl) | cases h

/-- `handleContentBlockDeltaEvent` leaves the message untouched on the
failures that are not sink failures (those performed no sink call). -/
theorem delta_atomic (p : MessageParams) (e : JMap) (m m' : Message) (err : String)
    (h : handleContentBlockDeltaEvent p e m = .ok (m', some err, [])) : m' = m := by
  unfold handleContentBlockDeltaEvent at h
  split at h
  · cases h; rfl
  · split at h
    · cases h; rfl
    · dsimp only at h
      split at h
      · cases h
      · rename_i heq
        cases h
        exact deltaSwitch_fail_eq _ _ _ _ _ _ heq
      · obtain ⟨-, sc, hsc⟩ := deltaStream_err_calls _ _ _ _ _ _ _ h
        cases hsc

/-- `handleMessageDeltaEvent` mutates at most the stop reason when it
fails. -/
theorem msgDelta_err_shape (e : JMap) (m m' : Message) (err : String)
    (h : handleMessageDeltaEvent e m = (m', some err)) :
    { m' with stopReason := m.stopReason } = m := by
  unfold handleMessageDeltaEvent at h
  repeat' split at h
  all_goals first | (cases h; rfl) | cases h

/-- Successful `tool_use_delta` fold: the stored arguments become the
shallow merge, re-serialized. -/
theorem handleDelta_toolUse_merge (payload : MessageParams) (event : JMap)
    (resp : Message) (i : Int) (delta input existing : JMap)
    (cb : ContentBlock) (tc : ToolCall)
    (hpayload : payload.streamFunc = none)
    (hidx : asNum (jLookup event "index") = some i)
    (hdelta : asObj (jLookup event "delta") = some delta)
    (hdt : getString delta "type" = "tool_use_delta")
    (hi : 0 ≤ i)
    (hget : resp.content.get? i.toNat = some cb)
    (htc : cb.toolCall = some tc)
    (hexist : tc.input = some (JSON.obj existing))
    (hinput : asObj (jLookup delta "input") = some input) :
    handleContentBlockDeltaEvent payload event resp =
      .ok ({ resp with
               content := (listModify resp.content i.toNat
                 (fun c => { c with
                               toolCall := some { tc with
                                                    input := some (JSON.obj (mapMerge existing input)) } })) },
           none, []) := by
  have hlt : i.toNat < resp.content.length := by
    rcases List.get?_eq_some.mp hget with ⟨hl, -⟩
    exact hl
  have hle : ¬ ((resp.content.length : Int) ≤ i) := by
    have hti : (i.toNat : Int) = i := Int.toNat_of_nonneg hi
    omega
  have hneg : ¬ (i < 0) := by omega
  unfold handleContentBlockDeltaEvent
  simp only [hidx, hdelta]
  rw [hdt]
  unfold handleContentBlockDeltaSwitch
  simp only [if_neg hle, if_neg hneg, hget, Option.some_bind, htc, hinput, hexist]
  unfold handleContentBlockDeltaStream
  simp only [hpayload]

/-- `tool_use_delta` with no tool-invocation segment at the index is a fold
error (before any sink involvement, so for every `payload`). -/
theorem handleDelta_toolUse_missingBlock (payload : MessageParams) (event : JMap)
    (resp : Message) (i : Int) (delta : JMap)
    (hidx : asNum (jLookup event "index") = some i)
    (hdelta : asObj (jLookup event "delta") = some delta)
    (hdt : getString delta "type" = "tool_use_delta")
    (hi : 0 ≤ i)
    (hnone : (resp.content.get? i.toNat).bind ContentBlock.toolCall = none) :
    handleContentBlockDeltaEvent payload event resp =
      .ok (resp, some "invalid tool_use_delta: no corresponding tool_use block", []) := by
  have hneg : ¬ (i < 0) := by omega
  unfold handleContentBlockDeltaEvent
  simp only [hidx, hdelta]
  rw [hdt]
  unfold handleContentBlockDeltaSwitch
  by_cases hle : (resp.content.length : Int) ≤ i
  · simp only [if_pos hle]
  · simp only [if_neg hle, if_neg hneg, hnone]

/-!  The claims. -/

/-- C1: folding the event sequence message_start(id=msg_1, input_tokens=10),
content_block_start(index 0, text), text_delta(index 0, "Hi"),
text_delta(index 0, " there"), message_delta(stop_reason end_turn,
output_tokens 5), message_stop through parseStreamingMessageResponse yields
exactly the Message with ID "msg_1", one text content block "Hi there",
stop reason "end_turn" and Usage 10/5, with no error. -/
theorem claim1_end_to_end_fold :
    parseStreamingMessageResponse {}
      [.event sampleMessageStart, .event sampleTextBlockStart,
       .event (sampleTextDelta "Hi"), .event (sampleTextDelta " there"),
       .event sampleMessageDelta, .event sampleMessageStop] none =
    .ok (some { id := "msg_1",
                content := [{ cbType := "text", text := "Hi there" }],
                stopReason := "end_turn",
                usage := { inputTokens := 10, outputTokens := 5 } }, none) := rfl

/-- C2 counterexample: a stream holding one successfully folded
`message_start` event and no `message_stop` returns a nil result and no
error, although an event was seen and its fold is a non-empty message —
refuting "the result is nil only when no events were seen at all" and
"success carrying the last Response built from the folded events". -/
theorem claim2_counterexample :
    parseStreamingMessageResponse {} [.event sampleMessageStart] none = .ok (none, none) ∧
    processStreamEvent {} sampleMessageStart {} =
      .ok { response := { id := "msg_1", usage := { inputTokens := 10 } } } ∧
    ({ id := "msg_1", usage := { inputTokens := 10 } } : Message) ≠ ({} : Message) := by
  refine ⟨rfl, rfl, fun h => ?_⟩
  exact absurd (congrArg Message.id h) (by decide)

/-- C2 (amended): on natural end of input with no error, the result is nil
whenever the stream carried no `message_stop` event — regardless of how
many other events were folded; only a `message_stop` delivers a response
to the consumer (in particular a ping-only stream yields nil, no
error). -/
theorem claim2_nil_without_stop (payload : MessageParams)
    (lines : List StreamLine) (readErr : Option String) (r : Option Message)
    (hns : hasNoMessageStop lines = true)
    (h : parseStreamingMessageResponse payload lines readErr = .ok (r, none)) :
    r = none :=
  parseLoop_no_stop payload lines {} none readErr r h hns

/-- C2 witness: the ping-only stream. -/
theorem claim2_witness :
    hasNoMessageStop [.event samplePing] = true ∧
    parseStreamingMessageResponse {} [.event samplePing] none = .ok (none, none) ∧
    (none : Option Message) = none :=
  ⟨rfl, rfl, claim2_nil_without_stop {} [.event samplePing] none none rfl rfl⟩

/-- C3 counterexample: with a sink attached, folding a `tool_use_delta`
(a sub-kind that is not text-delta) invokes the sink once, handing it a
nil fragment — refuting "invoked … for no other delta sub-kind". -/
theorem claim3_counterexample :
    handleContentBlockDeltaEvent acceptingSinkParams sampleToolUseDeltaBare
      sampleToolMessage = .ok (sampleToolMessage, none, [none]) ∧
    ("tool_use_delta" : String) ≠ "text_delta" :=
  ⟨rfl, by decide⟩

/-- C3 (amended): when a sink is present, every successful
`content_block_delta` fold invokes it exactly once — whatever the delta
sub-kind — handing it the delta's text field (the newly added fragment
only) for `text_delta` and a nil fragment for `tool_use_delta` and
`tool_result_delta`. -/
theorem claim3_sink_once_per_delta (payload : MessageParams)
    (sink : Option String → Option String) (event : JMap) (resp m : Message)
    (calls : List (Option String))
    (hsink : payload.streamFunc = some sink)
    (h : handleContentBlockDeltaEvent payload event resp = .ok (m, none, calls)) :
    ∃ sc, calls = [sc] ∧
      ∀ delta, asObj (jLookup event "delta") = some delta →
        (getString delta "type" = "text_delta" →
          ∃ t, asString (jLookup delta "text") = some t ∧ sc = some t) ∧
        ((getString delta "type" = "tool_use_delta" ∨
          getString delta "type" = "tool_result_delta") → sc = none) := by
  unfold handleContentBlockDeltaEvent at h
  split at h
  · cases h
  · split at h
    · cases h
    · rename_i delta0 hdelta0
      dsimp only at h
      split at h
      · cases h
      · cases h
      · unfold handleContentBlockDeltaStream at h
        simp only [hsink] at h
        rcases hsc : streamContentFor delta0 (getString delta0 "type") with sc | r
        swap
        · simp only [hsc] at h
          cases h
        simp only [hsc] at h
        rcases hcall : sink sc with _ | se
        · simp only [hcall] at h
          cases h
          refine ⟨sc, rfl, ?_⟩
          intro delta hd
          rw [hdelta0] at hd
          cases hd
          constructor
          · intro htext
            rw [htext] at hsc
            rcases ht : asString (jLookup delta0 "text") with _ | t
            · simp only [streamContentFor, ht] at hsc
              cases hsc
            · simp only [streamContentFor, ht] at hsc
              cases hsc
              exact ⟨t, rfl, rfl⟩
          · rintro (htool | htool) <;> rw [htool] at hsc <;>
              simp only [streamContentFor] at hsc <;> cases hsc <;> rfl
        · simp only [hcall] at h
          cases h

/-- C3 witness: a text-delta with fragment "Hi" and an accepting sink. -/
theorem claim3_witness :
    ∃ sc, ([some "Hi"] : List (Option String)) = [sc] ∧
      ∀ delta, asObj (jLookup (sampleTextDelta "Hi") "delta") = some delta →
        (getString delta "type" = "text_delta" →
          ∃ t, asString (jLookup delta "text") = some t ∧ sc = some t) ∧
        ((getString delta "type" = "tool_use_delta" ∨
          getString delta "type" = "tool_result_delta") → sc = none) :=
  claim3_sink_once_per_delta acceptingSinkParams (fun _ => none)
    (sampleTextDelta "Hi") {} { content := [{ cbType := "text", text := "Hi" }] }
    [some "Hi"] rfl rfl

/-- C4: for a tool-invocation segment whose accumulated arguments decode to
a key-value mapping, a `tool_use_delta` with a partial input mapping
replaces the stored arguments with the re-serialized key-by-key shallow
merge; the merge is last-write-wins per key; and the fold fails with an
error when no tool-invocation segment exists at the delta's index. -/
theorem claim4_tool_argument_merge :
    (∀ (payload : MessageParams) (event : JMap) (resp : Message) (i : Int)
       (delta input existing : JMap) (cb : ContentBlock) (tc : ToolCall),
       payload.streamFunc = none →
       asNum (jLookup event "index") = some i →
       asObj (jLookup event "delta") = some delta →
       getString delta "type" = "tool_use_delta" →
       0 ≤ i →
       resp.content.get? i.toNat = some cb →
       cb.toolCall = some tc →
       tc.input = some (JSON.obj existing) →
       asObj (jLookup delta "input") = some input →
       handleContentBlockDeltaEvent payload event resp =
         .ok ({ resp with
                  content := (listModify resp.content i.toNat
                    (fun c => { c with
                                  toolCall := some { tc with
                                                       input := some (JSON.obj (mapMerge existing input)) } })) },
              none, [])) ∧
    (∀ (existing input : JMap) (k : String),
       (input.map Prod.fst).Nodup →
       jLookup (mapMerge existing input) k =
         match jLookup input k with
         | some v => some v
         | none => jLookup existing k) ∧
    (∀ (payload : MessageParams) (event : JMap) (resp : Message) (i : Int)
       (delta : JMap),
       asNum (jLookup event "index") = some i →
       asObj (jLookup event "delta") = some delta →
       getString delta "type" = "tool_use_delta" →
       0 ≤ i →
       (resp.content.get? i.toNat).bind ContentBlock.toolCall = none →
       handleContentBlockDeltaEvent payload event resp =
         .ok (resp, some "invalid tool_use_delta: no corresponding tool_use block", [])) :=
  ⟨handleDelta_toolUse_merge, mapMerge_lookup, handleDelta_toolUse_missingBlock⟩

/-- C4 witness: arguments \x7b"ticker":"^GSPC"\x7d merged with the delta
\x7b"date":"2023-07-01"\x7d store a mapping carrying both keys, and a
`tool_use_delta` aimed at an empty message errors. -/
theorem claim4_witness :
    handleContentBlockDeltaEvent {} sampleToolUseDeltaDate sampleToolMessage =
      .ok ({ content := [{ cbType := "tool_use",
                           toolCall := some { tcType := "tool_use", id := "call_123",
                                              name := "get_stock_price",
                                              input := some (JSON.obj (mapMerge
                                                [("ticker", JSON.str "^GSPC")]
                                                [("date", JSON.str "2023-07-01")])) } }] },
           none, []) ∧
    jLookup (mapMerge [("ticker", JSON.str "^GSPC")] [("date", JSON.str "2023-07-01")])
      "ticker" = some (JSON.str "^GSPC") ∧
    jLookup (mapMerge [("ticker", JSON.str "^GSPC")] [("date", JSON.str "2023-07-01")])
      "date" = some (JSON.str "2023-07-01") ∧
    handleContentBlockDeltaEvent {} sampleToolUseDeltaDate {} =
      .ok ({}, some "invalid tool_use_delta: no corresponding tool_use block", []) :=
  ⟨claim4_tool_argument_merge.1 {} sampleToolUseDeltaDate sampleToolMessage 0
      [("type", JSON.str "tool_use_delta"), ("input", JSON.obj [("date", JSON.str "2023-07-01")])]
      [("date", JSON.str "2023-07-01")] [("ticker", JSON.str "^GSPC")]
      { cbType := "tool_use",
        toolCall := some { tcType := "tool_use", id := "call_123",
                           name := "get_stock_price",
                           input := some (JSON.obj [("ticker", JSON.str "^GSPC")]) } }
      { tcType := "tool_use", id := "call_123", name := "get_stock_price",
        input := some (JSON.obj [("ticker", JSON.str "^GSPC")]) }
      rfl rfl rfl rfl (by decide) rfl rfl rfl rfl,
   claim4_tool_argument_merge.2.1 [("ticker", JSON.str "^GSPC")]
      [("date", JSON.str "2023-07-01")] "ticker" (by decide),
   claim4_tool_argument_merge.2.1 [("ticker", JSON.str "^GSPC")]
      [("date", JSON.str "2023-07-01")] "date" (by decide),
   claim4_tool_argument_merge.2.2 {} sampleToolUseDeltaDate {} 0
      [("type", JSON.str "tool_use_delta"), ("input", JSON.obj [("date", JSON.str "2023-07-01")])]
      rfl rfl rfl (by decide) rfl⟩

/-- C5 counterexample: a `content_block_start` of kind `tool_use` at index
0 appends a new segment although a segment already exists at that index
(the guard exists only in the `text` arm), leaving the new segment at
position 1 ≠ its supplied index 0 — refuting "the Content sequence is left
unchanged" and "the position of every segment equals the index supplied by
the stream". -/
theorem claim5_counterexample :
    handleContentBlockStartEvent sampleToolBlockStart sampleTextMessage =
      ({ content := [{ cbType := "text", text := "hello" },
                     { cbType := "tool_use",
                       toolCall := some { tcType := "tool_use", id := "call_123",
                                          name := "get_stock_price", input := none } }] },
       none) ∧
    sampleTextMessage.content.length = 1 :=
  ⟨rfl, rfl⟩

/-- C5 (amended): a `text` segment-start appends a new segment only when no
segment exists at its index and is otherwise a no-op; `tool_use` and
`tool_result` segment-starts always append a segment initialized from the
descriptor; every append goes to the end of the sequence, so a segment's
position equals the supplied index only when they happen to coincide. -/
theorem claim5_segment_start (event : JMap) (resp : Message) (i : Int) (cb : JMap)
    (hidx : asNum (jLookup event "index") = some i)
    (hcb : asObj (jLookup event "content_block") = some cb) :
    ((getString cb "type" = "text" →
        (i < (resp.content.length : Int) →
          handleContentBlockStartEvent event resp = (resp, none)) ∧
        ((resp.content.length : Int) ≤ i →
          handleContentBlockStartEvent event resp =
            ({ resp with content := resp.content ++ [{ cbType := "text" }] }, none))) ∧
      (getString cb "type" = "tool_use" →
        handleContentBlockStartEvent event resp =
          ({ resp with
               content := resp.content ++
                 [{ cbType := "tool_use",
                    toolCall := some { tcType := "tool_use", id := getString cb "id",
                                       name := getString cb "name",
                                       input := jLookup cb "input" } }] }, none)) ∧
      (getString cb "type" = "tool_result" →
        handleContentBlockStartEvent event resp =
          ({ resp with
               content := resp.content ++
                 [{ cbType := "tool_result",
                    toolOutput := some { toolCallID := getString cb "tool_call_id",
                                         output := getString cb "output" } }] }, none))) := by
  refine ⟨fun ht => ⟨fun hlt => ?_, fun hle => ?_⟩, fun ht => ?_, fun ht => ?_⟩ <;>
    unfold handleContentBlockStartEvent <;> simp only [hidx, hcb] <;> rw [ht]
  · simp only [if_neg (by omega : ¬ ((resp.content.length : Int) ≤ i))]
  · simp only [if_pos hle]
  · rfl
  · rfl

/-- C5 witness: a text segment-start on an empty message appends the
segment. -/
theorem claim5_witness :
    handleContentBlockStartEvent sampleTextBlockStart {} =
      (({ content := [{ cbType := "text" }] } : Message), none) :=
  ((claim5_segment_start sampleTextBlockStart {} 0 [("type", JSON.str "text")]
      rfl rfl).1 rfl).2 (by decide)

/-- C6 counterexample: a `message_delta` whose `output_tokens` is the
string "5" (present but not numeric) folds without error, leaving
OutputTokens unchanged — refuting "the fold returns an error naming the
offending field". -/
theorem claim6_counterexample :
    handleMessageDeltaEvent sampleMessageDeltaStringTokens {} =
      ({ stopReason := "end_turn" }, none) := rfl

/-- C6 (amended): a `message_delta` with delta and usage mappings sets the
stop reason from the nested delta; a present but non-numeric
`output_tokens` is silently ignored (the fold still succeeds and
OutputTokens is unchanged), while a numeric one is narrowed and set. -/
theorem claim6_message_delta (event : JMap) (resp : Message)
    (delta usage : JMap) (v : JSON)
    (hdelta : asObj (jLookup event "delta") = some delta)
    (husage : asObj (jLookup event "usage") = some usage)
    (hv : jLookup usage "output_tokens" = some v) :
    (asNum (some v) = none →
      handleMessageDeltaEvent event resp =
        ({ resp with stopReason := getString delta "stop_reason" }, none)) ∧
    (∀ n, v = JSON.num n →
      handleMessageDeltaEvent event resp =
        ({ resp with stopReason := getString delta "stop_reason",
                     usage := { resp.usage with outputTokens := n } }, none)) := by
  constructor
  · intro hnum
    unfold handleMessageDeltaEvent
    simp only [hdelta, husage, hv, hnum]
  · intro n hn
    subst hn
    unfold handleMessageDeltaEvent
    simp only [hdelta, husage, hv, asNum]

/-- C6 witness: both halves at concrete events. -/
theorem claim6_witness :
    handleMessageDeltaEvent sampleMessageDeltaStringTokens sampleTextMessage =
      ({ sampleTextMessage with stopReason := "end_turn" }, none) ∧
    handleMessageDeltaEvent sampleMessageDelta sampleTextMessage =
      ({ sampleTextMessage with stopReason := "end_turn",
                                usage := { outputTokens := 5 } }, none) :=
  ⟨(claim6_message_delta sampleMessageDeltaStringTokens sampleTextMessage
      [("stop_reason", JSON.str "end_turn")] [("output_tokens", JSON.str "5")]
      (JSON.str "5") rfl rfl rfl).1 rfl,
   (claim6_message_delta sampleMessageDelta sampleTextMessage
      [("stop_reason", JSON.str "end_turn")] [("output_tokens", JSON.num 5)]
      (JSON.num 5) rfl rfl rfl).2 5 rfl⟩

/-- C7 counterexample: a stream that carries an invalid payload line can
still crash instead of returning an error and a nil Response — here an
earlier text-delta with no text field meets an attached sink and the run
panics before the invalid line is reached — refuting the claim for every
input. -/
theorem claim7_counterexample :
    parseStreamingMessageResponse acceptingSinkParams
      [.event sampleTextDeltaNoText, .badJSON "invalid character"] none =
      .crash "interface conversion: interface \x7b\x7d is nil, not string" ∧
    hasInvalidPayload [.event sampleTextDeltaNoText, .badJSON "invalid character"] = true :=
  ⟨rfl, rfl⟩

/-- C7 (amended): every run of parseStreamingMessageResponse that completes
(returns at all rather than crashing on a runtime panic) returns either a
Response with a nil error or a nil Response with an error, never both; and
when the stream contains a payload line whose data is not valid JSON, it
returns an error and a nil Response. -/
theorem claim7_error_or_result (payload : MessageParams)
    (lines : List StreamLine) (readErr : Option String)
    (r : Option Message) (e : Option String)
    (h : parseStreamingMessageResponse payload lines readErr = .ok (r, e)) :
    (hasInvalidPayload lines = true → r = none ∧ e ≠ none) ∧
      (r = none ∨ e = none) :=
  parseLoop_ok_shape payload lines {} none readErr r e h

/-- C7 witness: a one-line stream with undecodable payload data. -/
theorem claim7_witness :
    (hasInvalidPayload [StreamLine.badJSON "unexpected end of JSON input"] = true →
      (none : Option Message) = none ∧
        (some ("failed to parse stream event: " ++ "unexpected end of JSON input")
          : Option String) ≠ none) ∧
    ((none : Option Message) = none ∨
      (some ("failed to parse stream event: " ++ "unexpected end of JSON input")
        : Option String) = none) :=
  claim7_error_or_result {} [StreamLine.badJSON "unexpected end of JSON input"]
    none none (some ("failed to parse stream event: " ++ "unexpected end of JSON input")) rfl

/-- C8: an event whose top-level type is a string outside the recognized
set \x7bmessage_start, content_block_start, content_block_delta,
content_block_stop, message_delta, message_stop, ping\x7d leaves the
accumulated Response unchanged and yields no error (logged and
skipped). -/
theorem claim8_unknown_event_skipped (payload : MessageParams) (event : JMap)
    (resp : Message) (t : String)
    (ht : asString (jLookup event "type") = some t)
    (hu : t ∉ ["message_start", "content_block_start", "content_block_delta",
               "content_block_stop", "message_delta", "message_stop", "ping"]) :
    processStreamEvent payload event resp =
      .ok { response := resp, err := none, sent := [], sinkCalls := [] } := by
  unfold processStreamEvent
  rw [ht]
  simp only [List.mem_cons, List.mem_singleton, not_or] at hu
  obtain ⟨h1, h2, h3, h4, h5, h6, h7, -⟩ := hu
  split
  all_goals simp_all

/-- C8 witness: the event type "unknown_event". -/
theorem claim8_witness :
    processStreamEvent {} [("type", JSON.str "unknown_event")] sampleTextMessage =
      .ok { response := sampleTextMessage, err := none, sent := [], sinkCalls := [] } :=
  claim8_unknown_event_skipped {} [("type", JSON.str "unknown_event")]
    sampleTextMessage "unknown_event" rfl (by decide)

/-- C9: with a sink attached, folding a `content_block_delta` of sub-kind
`text_delta` whose delta lacks a string `text` field crashes on the
unchecked type assertion in the streaming section instead of returning a
message or an error; without a sink the same event folds fine, confirming
the crash is a slip in the sink path. -/
theorem claim9_text_delta_sink_crash :
    processStreamEvent acceptingSinkParams sampleTextDeltaNoText {} =
      .crash "interface conversion: interface \x7b\x7d is nil, not string" ∧
    processStreamEvent {} sampleTextDeltaNoText {} =
      .ok { response := { content := [{ cbType := "text" }] },
            err := none, sent := [], sinkCalls := [] } :=
  ⟨rfl, rfl⟩

/-- C10 counterexample: `handleMessageDeltaEvent` writes the stop reason
before validating the usage field, so a well-formed delta with a missing
usage returns the error together with a mutated message — refuting "the
Message it returns is equal to the Message it was passed" for every
failing handler run. -/
theorem claim10_counterexample :
    handleMessageDeltaEvent sampleMessageDeltaNoUsage {} =
      ({ stopReason := "end_turn" }, some "invalid usage field") ∧
    ({ stopReason := "end_turn" } : Message) ≠ ({} : Message) := by
  refine ⟨rfl, fun h => ?_⟩
  exact absurd (congrArg Message.stopReason h) (by decide)

/-- C10 (amended): `handleMessageStartEvent` and
`handleContentBlockStartEvent` are atomic on failure;
`handleContentBlockDeltaEvent` is atomic on every failure that performed
no sink invocation (sink failures return the already-mutated message); and
`handleMessageDeltaEvent` mutates at most the stop reason alongside an
error. -/
theorem claim10_atomic_on_failure :
    (∀ (e : JMap) (m m' : Message) (err : String),
        handleMessageStartEvent e m = (m', some err) → m' = m) ∧
    (∀ (e : JMap) (m m' : Message) (err : String),
        handleContentBlockStartEvent e m = (m', some err) → m' = m) ∧
    (∀ (p : MessageParams) (e : JMap) (m m' : Message) (err : String),
        handleContentBlockDeltaEvent p e m = .ok (m', some err, []) → m' = m) ∧
    (∀ (e : JMap) (m m' : Message) (err : String),
        handleMessageDeltaEvent e m = (m', some err) →
          { m' with stopReason := m.stopReason } = m) :=
  ⟨msgStart_atomic, cbStart_atomic, delta_atomic, msgDelta_err_shape⟩

/-- C10 witness: a `message_start` with no message field leaves the message
intact. -/
theorem claim10_witness :
    handleMessageStartEvent [] sampleTextMessage =
      (sampleTextMessage, some "invalid message field") ∧
    sampleTextMessage = sampleTextMessage :=
  ⟨rfl, claim10_atomic_on_failure.1 [] sampleTextMessage sampleTextMessage
      "invalid message field" rfl⟩

end AnthropicGo
